import Mathlib

/-!
Shallow embedding of the core of the Photon payment-channel node
(`raidenService.go`, `models/db.go`, `models/stormdb/contract_call_tx.go`)
together with proofs about its write-ahead log, snapshot handling,
clean-shutdown flag, transfer bookkeeping and locking behaviour.

Persisted payloads (state changes, events, snapshot states) are kept as type
parameters: the Go code stores them as opaque gob-encoded values.  Storm's
auto-increment ids are modelled by explicit `next…Id` counters, which is what
`storm:"id,increment"` provides, starting at 1 for a fresh bucket.
-/

namespace Photon

/-- A persisted record of the `statechange` bucket: `StateChange` in
`models/db.go` (`ID int storm:"id,increment"`, payload). -/
structure StateChangeRec (σ : Type) where
  id : Nat
  stateChange : σ
  deriving DecidableEq, Repr

/-- A persisted record of the `events` bucket: `InternalEvent` in
`models/db.go` (`ID`, `StateChangeId`, `BlockNumber`, `EventObject`). -/
structure InternalEventRec (ε : Type) where
  id : Nat
  stateChangeId : Nat
  blockNumber : Int
  eventObject : ε
  deriving DecidableEq, Repr

/-- A row of the snapshot bucket: `snapshotToWrite` in `models/db.go`
(`ID`, `StateChangeId`, `State interface{}`; a `nil` state is `none`). -/
structure SnapRow (τ : Type) where
  stateChangeId : Nat
  state : Option τ
  deriving DecidableEq, Repr

/-- The parts of the storm database (`ModelDB` in `models/db.go`) that the
claims touch: the two write-ahead-log buckets with their auto-increment
counters, the snapshot bucket (rows keyed by their integer id), and the
`meta` bucket entries `version` and `close`, plus whether the bolt handle
has been closed. -/
structure ModelDB (σ ε τ : Type) where
  stateChanges : List (StateChangeRec σ)
  nextStateChangeId : Nat
  events : List (InternalEventRec ε)
  nextEventId : Nat
  snapshots : List (Nat × SnapRow τ)
  metaVersion : Option Nat
  metaClose : Option Bool
  handleClosed : Bool
  deriving DecidableEq, Repr

/-- The `dbVersion` constant of `models/db.go`. -/
def dbVersion : Nat := 1

/-- Model of `ModelDB.LogStateChange`: save a `StateChange` record holding
the payload — storm assigns the auto-incremented id to `sc.ID` — and return
that id. -/
def logStateChange {σ ε τ : Type} (db : ModelDB σ ε τ) (sc : σ) :
    ModelDB σ ε τ × Nat :=
  let id := db.nextStateChangeId
  ({ db with
      stateChanges := db.stateChanges ++ [⟨id, sc⟩]
      nextStateChangeId := id + 1 }, id)

/-- One `model.db.Save(&InternalEvent{...})` call inside
`ModelDB.LogEvents`: append the event record with the auto-incremented id. -/
def saveInternalEvent {σ ε τ : Type} (db : ModelDB σ ε τ) (stateChangeId : Nat)
    (blockNumber : Int) (e : ε) : ModelDB σ ε τ :=
  { db with
      events := db.events ++ [⟨db.nextEventId, stateChangeId, blockNumber, e⟩]
      nextEventId := db.nextEventId + 1 }

/-- The loop body of `ModelDB.LogEvents`: save each event in order; a failing
save (the bolt layer can fail, modelled by the oracle `fails`, indexed by the
position of the save attempt within this call) stops the loop and reports the
error, leaving the database as accumulated so far.  The returned `Bool` is
whether an error was returned. -/
def logEventsFrom {σ ε τ : Type} (db : ModelDB σ ε τ) (stateChangeId : Nat)
    (blockNumber : Int) (fails : Nat → Bool) (k : Nat) :
    List ε → ModelDB σ ε τ × Bool
  | [] => (db, false)
  | e :: rest =>
    if fails k then (db, true)
    else logEventsFrom (saveInternalEvent db stateChangeId blockNumber e)
      stateChangeId blockNumber fails (k + 1) rest

/-- Model of `ModelDB.LogEvents stateChangeId events currentBlockNumber`. -/
def logEvents {σ ε τ : Type} (db : ModelDB σ ε τ) (stateChangeId : Nat)
    (events : List ε) (blockNumber : Int) (fails : Nat → Bool) :
    ModelDB σ ε τ × Bool :=
  logEventsFrom db stateChangeId blockNumber fails 0 events

/-- The records `LogEvents` is expected to append for a list of events:
one per event, in emission order, ids consecutive from `base`, each carrying
the state-change id and the current block number. -/
def mkEventRecords {ε : Type} (base stateChangeId : Nat) (blockNumber : Int) :
    List ε → List (InternalEventRec ε)
  | [] => []
  | e :: rest =>
    ⟨base, stateChangeId, blockNumber, e⟩ ::
      mkEventRecords (base + 1) stateChangeId blockNumber rest

lemma logEventsFrom_spec {σ ε τ : Type} :
    ∀ (evs : List ε) (db : ModelDB σ ε τ) (stateChangeId : Nat)
      (blockNumber : Int) (fails : Nat → Bool) (k K : Nat),
      K ≤ evs.length →
      (∀ j, j < K → fails (k + j) = false) →
      (K < evs.length → fails (k + K) = true) →
      logEventsFrom db stateChangeId blockNumber fails k evs =
        ({ db with
            events := db.events ++
              mkEventRecords db.nextEventId stateChangeId blockNumber
                (evs.take K)
            nextEventId := db.nextEventId + K },
          decide (K < evs.length))
  | [], db, scid, bn, fails, k, K, hK, _, _ => by
    have hK0 : K = 0 := Nat.le_zero.mp hK
    subst hK0
    simp [logEventsFrom, mkEventRecords]
  | e :: rest, db, scid, bn, fails, k, K, hK, hpre, hstop => by
    cases K with
    | zero =>
      have hf : fails (k + 0) = true := hstop (by simp)
      simp only [Nat.add_zero] at hf
      simp [logEventsFrom, hf, mkEventRecords]
    | succ K' =>
      have hf : fails k = false := by
        have := hpre 0 (Nat.succ_pos K')
        simpa using this
      have hK' : K' ≤ rest.length := by
        simpa [Nat.succ_le_succ_iff] using hK
      have hpre' : ∀ j, j < K' → fails (k + 1 + j) = false := by
        intro j hj
        have := hpre (j + 1) (by omega)
        simpa [Nat.add_comm, Nat.add_assoc, Nat.add_left_comm] using this
      have hstop' : K' < rest.length → fails (k + 1 + K') = true := by
        intro h
        have := hstop (by simpa [Nat.succ_lt_succ_iff] using h)
        simpa [Nat.add_comm, Nat.add_assoc, Nat.add_left_comm] using this
      have ih := logEventsFrom_spec rest
        (saveInternalEvent db scid bn e) scid bn fails (k + 1) K'
        hK' hpre' hstop'
      simp only [saveInternalEvent] at ih
      simp only [logEventsFrom, hf, Bool.false_eq_true, if_false,
        saveInternalEvent, List.take_succ_cons, mkEventRecords]
      rw [ih]
      simp only [Prod.mk.injEq, ModelDB.mk.injEq, List.append_assoc,
        List.singleton_append, true_and, and_true, List.length_cons,
        decide_eq_decide]
      constructor
      · omega
      · omega

/-- A concrete freshly-created database over `Nat` payloads, used to
instantiate the general theorems. -/
def sampleDb : ModelDB Nat Nat Nat :=
  { stateChanges := []
    nextStateChangeId := 1
    events := []
    nextEventId := 1
    snapshots := [(1, ⟨0, none⟩)]
    metaVersion := some dbVersion
    metaClose := some false
    handleClosed := false }

/-- C1: Write-ahead-log protocol: for every dispatched state change,
`LogStateChange` appends one `StateChange` record and returns its
auto-incremented identifier (a second call returns the next identifier), and
`LogEvents` then appends one `InternalEvent` record per emitted event, in
emission order, each carrying that state-change identifier and the current
block number; if saving any event fails (`K` is the position of the first
failing save), `LogEvents` stops and returns the error, leaving later events
unwritten. -/
theorem c1_write_ahead_log {σ ε τ : Type} (db : ModelDB σ ε τ) (sc : σ)
    (evs : List ε) (blockNumber : Int) (fails : Nat → Bool) (K : Nat)
    (hK : K ≤ evs.length)
    (hpre : ∀ j, j < K → fails j = false)
    (hstop : K < evs.length → fails K = true) :
    (logStateChange db sc).2 = db.nextStateChangeId ∧
    (logStateChange db sc).1.stateChanges =
      db.stateChanges ++ [⟨db.nextStateChangeId, sc⟩] ∧
    (logStateChange (logStateChange db sc).1 sc).2 = db.nextStateChangeId + 1 ∧
    logEvents (logStateChange db sc).1 (logStateChange db sc).2 evs
        blockNumber fails =
      ({ (logStateChange db sc).1 with
          events := db.events ++
            mkEventRecords db.nextEventId (logStateChange db sc).2
              blockNumber (evs.take K)
          nextEventId := db.nextEventId + K },
        decide (K < evs.length)) := by
  refine ⟨rfl, rfl, rfl, ?_⟩
  have h := logEventsFrom_spec evs (logStateChange db sc).1
    (logStateChange db sc).2 blockNumber fails 0 K hK
    (by simpa using hpre) (by simpa using hstop)
  simpa [logEvents, logStateChange] using h

/-- Witness for C1 at a concrete database: three events, the save of the
second one (position 1) fails, so exactly the first event is written and an
error is reported. -/
theorem c1_write_ahead_log_witness :
    (logStateChange sampleDb 7).2 = sampleDb.nextStateChangeId ∧
    (logStateChange sampleDb 7).1.stateChanges =
      sampleDb.stateChanges ++ [⟨sampleDb.nextStateChangeId, 7⟩] ∧
    (logStateChange (logStateChange sampleDb 7).1 7).2 =
      sampleDb.nextStateChangeId + 1 ∧
    logEvents (logStateChange sampleDb 7).1 (logStateChange sampleDb 7).2
        [10, 20, 30] 5 (fun j => j == 1) =
      ({ (logStateChange sampleDb 7).1 with
          events := sampleDb.events ++
            mkEventRecords sampleDb.nextEventId (logStateChange sampleDb 7).2
              5 ([10, 20, 30].take 1)
          nextEventId := sampleDb.nextEventId + 1 },
        decide (1 < ([10, 20, 30] : List Nat).length)) :=
  c1_write_ahead_log sampleDb 7 [10, 20, 30] 5 (fun j => j == 1) 1
    (by decide) (by decide) (by decide)

/-! ### Snapshot bucket (`OpenDb`, `Snapshot`, `LoadSnapshot`) -/

/-- Model of `OpenDb` on a path with no existing file (`needCreateDb`): it writes the
version to `meta`, saves an empty snapshot row `snapshotToWrite{ID: 1}`,
initialises the buckets and finally calls `MarkDbOpenedStatus`, which sets
`close = false`. -/
def openDbFresh (σ ε τ : Type) : ModelDB σ ε τ :=
  { stateChanges := []
    nextStateChangeId := 1
    events := []
    nextEventId := 1
    snapshots := [(1, ⟨0, none⟩)]
    metaVersion := some dbVersion
    metaClose := some false
    handleClosed := false }

/-- Storm's `Update` on a `snapshotToWrite` value with `ID = 1`: replace the
row whose id is 1; report an error (`none`) when no such row exists. -/
def updateSnapshotRow {τ : Type} (rows : List (Nat × SnapRow τ))
    (row : SnapRow τ) : Option (List (Nat × SnapRow τ)) :=
  if rows.any (fun p => p.1 == 1) then
    some (rows.map (fun p => if p.1 == 1 then (1, row) else p))
  else none

/-- Model of `ModelDB.Snapshot stateChangeId state`: build `snapshotToWrite` with the
hard-coded `ID: 1`, `Update` it, and return `(1, err)` whatever the
state-change identifier was. -/
def snapshot {σ ε τ : Type} (stateChangeId : Nat) (state : τ)
    (db : ModelDB σ ε τ) : ModelDB σ ε τ × Nat × Bool :=
  match updateSnapshotRow db.snapshots ⟨stateChangeId, some state⟩ with
  | some rows => ({ db with snapshots := rows }, 1, false)
  | none => (db, 1, true)

/-- Model of `ModelDB.LoadSnapshot`: fetch the single row with `ID = 1` and return its
state; both a missing row and a `nil` stored state yield `ErrNotFound`,
modelled as `none`. -/
def loadSnapshot {σ ε τ : Type} (db : ModelDB σ ε τ) : Option τ :=
  match db.snapshots.find? (fun p => p.1 == 1) with
  | some p => p.2.state
  | none => none

/-- Run a sequence of `Snapshot` calls (pairs of state-change id and state). -/
def runSnapshots {σ ε τ : Type} (ops : List (Nat × τ)) (db : ModelDB σ ε τ) :
    ModelDB σ ε τ :=
  ops.foldl (fun d p => (snapshot p.1 p.2 d).1) db

/-- The single snapshot row left behind by a sequence of `Snapshot` calls
starting from the empty row written at database creation. -/
def snapshotRunRow {τ : Type} (ops : List (Nat × τ)) : SnapRow τ :=
  ops.foldl (fun _ p => ⟨p.1, some p.2⟩) ⟨0, none⟩

lemma runSnapshots_single {σ ε τ : Type} :
    ∀ (ops : List (Nat × τ)) (db : ModelDB σ ε τ) (row : SnapRow τ),
      db.snapshots = [(1, row)] →
      (runSnapshots ops db).snapshots =
        [(1, ops.foldl (fun _ p => (⟨p.1, some p.2⟩ : SnapRow τ)) row)]
  | [], db, row, hdb => by simpa [runSnapshots] using hdb
  | p :: ops, db, row, hdb => by
    have hstep : (snapshot p.1 p.2 db).1.snapshots =
        [(1, (⟨p.1, some p.2⟩ : SnapRow τ))] := by
      simp [snapshot, updateSnapshotRow, hdb]
    have ih := runSnapshots_single ops (snapshot p.1 p.2 db).1
      ⟨p.1, some p.2⟩ hstep
    simpa [runSnapshots] using ih

/-- C2: there is exactly one snapshot row, which is overwritten: creating a
fresh database writes an empty snapshot with ID 1, `Snapshot` always updates
the row with ID 1 (returning id 1) regardless of the state-change identifier
passed, and `LoadSnapshot` reads only row ID 1, returning a not-found error
(`none`) when the stored state is nil — in particular on a fresh database. -/
theorem c2_single_snapshot_row {σ ε τ : Type} (ops : List (Nat × τ)) :
    (openDbFresh σ ε τ).snapshots = [(1, ⟨0, none⟩)] ∧
    (runSnapshots ops (openDbFresh σ ε τ)).snapshots =
      [(1, snapshotRunRow ops)] ∧
    (∀ scid st,
      (snapshot scid st (runSnapshots ops (openDbFresh σ ε τ))).2 =
        (1, false) ∧
      (snapshot scid st (runSnapshots ops (openDbFresh σ ε τ))).1.snapshots =
        [(1, ⟨scid, some st⟩)]) ∧
    loadSnapshot (runSnapshots ops (openDbFresh σ ε τ)) =
      (snapshotRunRow ops).state := by
  have hrun : (runSnapshots ops (openDbFresh σ ε τ)).snapshots =
      [(1, snapshotRunRow ops)] :=
    runSnapshots_single ops (openDbFresh σ ε τ) ⟨0, none⟩ rfl
  refine ⟨rfl, hrun, ?_, ?_⟩
  · intro scid st
    constructor
    · simp [snapshot, updateSnapshotRow, hrun]
    · simp [snapshot, updateSnapshotRow, hrun]
  · simp [loadSnapshot, hrun]

/-! ### Clean-shutdown flag in the `meta` bucket -/

/-- Model of `ModelDB.MarkDbOpenedStatus`: set `close = false` in `meta`. -/
def markDbOpenedStatus {σ ε τ : Type} (db : ModelDB σ ε τ) : ModelDB σ ε τ :=
  { db with metaClose := some false }

/-- The two primitive steps of `ModelDB.CloseDB`. -/
inductive DbAction where
  | setMetaCloseTrue
  | closeHandle
  deriving DecidableEq, Repr

def applyDbAction {σ ε τ : Type} (db : ModelDB σ ε τ) :
    DbAction → ModelDB σ ε τ
  | .setMetaCloseTrue => { db with metaClose := some true }
  | .closeHandle => { db with handleClosed := true }

/-- Steps of `ModelDB.CloseDB`, in source order: `db.Set(meta, close, true)`,
then `db.Close()`. -/
def closeDbActions : List DbAction := [.setMetaCloseTrue, .closeHandle]

def closeDb {σ ε τ : Type} (db : ModelDB σ ε τ) : ModelDB σ ε τ :=
  closeDbActions.foldl applyDbAction db

/-- Model of `OpenDb` on an existing file: it reads `version` (aborting on a missing
or mismatched value) and the `close` flag (aborting when unreadable, merely
logging when it is not `true`), writing nothing; `none` models the
`log.Crit` abort. -/
def openDbExisting {σ ε τ : Type} (db : ModelDB σ ε τ) :
    Option (ModelDB σ ε τ) :=
  match db.metaVersion with
  | none => none
  | some v =>
    if v = dbVersion then
      match db.metaClose with
      | none => none
      | some _ => some { db with handleClosed := false }
    else none

/-- Model of `ModelDB.IsDbCrashedLastTime`: read the `close` flag and return
`closeFlag != true`; an unreadable flag aborts (`none`). -/
def isDbCrashedLastTime {σ ε τ : Type} (db : ModelDB σ ε τ) : Option Bool :=
  db.metaClose.map (fun b => !b)

/-- C8: the clean-shutdown flag in the `meta` bucket distinguishes graceful
exit from crash: `CloseDB` sets the flag to true before closing the database;
a newly created database is marked `false` (`MarkDbOpenedStatus`);
`IsDbCrashedLastTime` returns true exactly when the stored flag is not true;
and for every open/close cycle that ends in `CloseDB`, a subsequent open of
the existing file reports no crash. -/
theorem c8_clean_shutdown_flag {σ ε τ : Type} (db : ModelDB σ ε τ) (b : Bool)
    (hflag : db.metaClose = some b) :
    (openDbFresh σ ε τ).metaClose = some false ∧
    markDbOpenedStatus db = { db with metaClose := some false } ∧
    ((closeDbActions.take 1).foldl applyDbAction db).metaClose = some true ∧
    ((closeDbActions.take 1).foldl applyDbAction db).handleClosed =
      db.handleClosed ∧
    (closeDb db).metaClose = some true ∧
    (closeDb db).handleClosed = true ∧
    isDbCrashedLastTime db = some (!b) ∧
    (∀ db2, openDbExisting (closeDb db) = some db2 →
      isDbCrashedLastTime db2 = some false) := by
  refine ⟨rfl, rfl, rfl, rfl, rfl, rfl, by simp [isDbCrashedLastTime, hflag],
    ?_⟩
  intro db2 h
  cases hv : db.metaVersion with
  | none =>
    rw [show openDbExisting (closeDb db) = none by
      simp [openDbExisting, closeDb, closeDbActions, applyDbAction, hv]] at h
    exact absurd h (by simp)
  | some v =>
    by_cases hvv : v = dbVersion
    · rw [show openDbExisting (closeDb db) =
          some { closeDb db with handleClosed := false } by
        simp [openDbExisting, closeDb, closeDbActions, applyDbAction, hv,
          hvv]] at h
      cases h
      simp [isDbCrashedLastTime, closeDb, closeDbActions, applyDbAction]
    · rw [show openDbExisting (closeDb db) = none by
        simp [openDbExisting, closeDb, closeDbActions, applyDbAction, hv,
          hvv]] at h
      exact absurd h (by simp)

/-- Witness for C8 at a concrete database: the freshly created database has
`close = false`, and after `CloseDB` a reopen reports no crash. -/
theorem c8_clean_shutdown_flag_witness :
    (openDbFresh Nat Nat Nat).metaClose = some false ∧
    markDbOpenedStatus sampleDb = { sampleDb with metaClose := some false } ∧
    ((closeDbActions.take 1).foldl applyDbAction sampleDb).metaClose =
      some true ∧
    ((closeDbActions.take 1).foldl applyDbAction sampleDb).handleClosed =
      sampleDb.handleClosed ∧
    (closeDb sampleDb).metaClose = some true ∧
    (closeDb sampleDb).handleClosed = true ∧
    isDbCrashedLastTime sampleDb = some (!false) ∧
    isDbCrashedLastTime { closeDb sampleDb with handleClosed := false } =
      some false :=
  have h := c8_clean_shutdown_flag sampleDb false rfl
  ⟨h.1, h.2.1, h.2.2.1, h.2.2.2.1, h.2.2.2.2.1, h.2.2.2.2.2.1,
    h.2.2.2.2.2.2.1,
    h.2.2.2.2.2.2.2 { closeDb sampleDb with handleClosed := false } rfl⟩

/-! ### Acknowledgement handling (`handleSentMessage` in `raidenService.go`) -/

/-- The three transition names a `StateManager` can run
(`initiator.NameInitiatorTransition`, `mediator.NameMediatorTransition`,
`target.NameTargetTransition`). -/
inductive TransitionName where
  | initiatorTransition
  | mediatorTransition
  | targetTransition
  deriving DecidableEq, Repr

/-- The `StateManager.ManagerState` values touched by `handleSentMessage`. -/
inductive ManagerState where
  | managerInit
  | sendMessage
  | sendMessageSuccess
  | transferComplete
  deriving DecidableEq, Repr

/-- The fields of `transfer.StateManager` read and written by
`handleSentMessage`. -/
structure StateManagerM where
  name : TransitionName
  managerState : ManagerState
  isBalanceProofSent : Bool
  isBalanceProofReceived : Bool
  deriving DecidableEq, Repr

/-- The manager update performed by `RaidenService.handleSentMessage` when an
acknowledgement arrives for a message whose tag carries a state manager:
the manager state becomes `StateManagerSendMessageSuccesss`; when the
acknowledged message is an `encoding.Secret` (unlock balance proof),
`IsBalanceProofSent` is set and the manager is marked
`StateManagerTransferComplete` unconditionally for the initiator transition,
never for the target transition, and for the mediator transition exactly when
both `IsBalanceProofSent` and `IsBalanceProofReceived` hold. -/
def handleSentMessageAck (mgr : StateManagerM) (isSecretMessage : Bool) :
    StateManagerM :=
  let mgr1 := { mgr with managerState := .sendMessageSuccess }
  if isSecretMessage then
    let mgr2 := { mgr1 with isBalanceProofSent := true }
    match mgr2.name with
    | .initiatorTransition => { mgr2 with managerState := .transferComplete }
    | .targetTransition => mgr2
    | .mediatorTransition =>
      if mgr2.isBalanceProofSent && mgr2.isBalanceProofReceived then
        { mgr2 with managerState := .transferComplete }
      else mgr2
  else mgr1

/-- C3: on acknowledgement of a sent `Secret` message, a mediator manager
moves to `StateManagerTransferComplete` if and only if the balance proof from
the payer has also been received — and then both of
`IsBalanceProofSent`/`IsBalanceProofReceived` hold — whereas an initiator
manager is marked complete unconditionally. -/
theorem c3_mediator_complete_iff_both_proofs (ms : ManagerState)
    (sent received : Bool) :
    ((handleSentMessageAck ⟨.mediatorTransition, ms, sent, received⟩
        true).managerState = .transferComplete ↔ received = true) ∧
    ((handleSentMessageAck ⟨.mediatorTransition, ms, sent, received⟩
        true).managerState = .transferComplete →
      (handleSentMessageAck ⟨.mediatorTransition, ms, sent, received⟩
          true).isBalanceProofSent = true ∧
      (handleSentMessageAck ⟨.mediatorTransition, ms, sent, received⟩
          true).isBalanceProofReceived = true) ∧
    (handleSentMessageAck ⟨.initiatorTransition, ms, sent, received⟩
        true).managerState = .transferComplete := by
  cases received <;> simp [handleSentMessageAck]

/-- Witness for C3 at a concrete manager: the payer's balance proof has been
received, so the mediator manager completes, with both flags set; the
initiator manager completes as well. -/
theorem c3_mediator_complete_iff_both_proofs_witness :
    ((handleSentMessageAck
        ⟨.mediatorTransition, .sendMessage, false, true⟩ true).managerState =
      .transferComplete ↔ (true : Bool) = true) ∧
    ((handleSentMessageAck
        ⟨.mediatorTransition, .sendMessage, false, true⟩
        true).isBalanceProofSent = true ∧
      (handleSentMessageAck
        ⟨.mediatorTransition, .sendMessage, false, true⟩
        true).isBalanceProofReceived = true) ∧
    (handleSentMessageAck
        ⟨.initiatorTransition, .sendMessage, false, true⟩ true).managerState =
      .transferComplete :=
  have h := c3_mediator_complete_iff_both_proofs .sendMessage false true
  ⟨h.1, h.2.1 (h.1.mpr rfl), h.2.2⟩

/-! ### Token-swap taker expiration (`messageTokenSwapTaker`) -/

/-- Signed 64-bit wrap-around: the value of a Go `int64` arithmetic result. -/
def wrap64 (x : Int) : Int := (x + 2 ^ 63) % 2 ^ 64 - 2 ^ 63

/-- The assignment `takerExpiration := msg.Expiration - params.DefaultRevealTimeout` in
`RaidenService.messageTokenSwapTaker`: the expiration of the taker's outgoing
mediated transfer, computed in Go `int64` arithmetic from the incoming
transfer's expiration and the configured default reveal timeout. -/
def takerExpiration (msgExpiration defaultRevealTimeout : Int) : Int :=
  wrap64 (msgExpiration - defaultRevealTimeout)

lemma wrap64_eq_self (x : Int) (h1 : -(2 ^ 63) ≤ x) (h2 : x < 2 ^ 63) :
    wrap64 x = x := by
  unfold wrap64
  omega

/-- C4: the token-swap taker sets the expiration of its outgoing mediated
transfer to the incoming transfer's expiration minus the default reveal
timeout, so (for int64-representable block numbers and a non-negative reveal
timeout) `expiration_out + reveal_timeout ≤ expiration_in`: the outgoing lock
expires at least `reveal_timeout` blocks earlier. -/
theorem c4_taker_expiration_bound (expirationIn revealTimeout : Int)
    (hrt : 0 ≤ revealTimeout)
    (hlo : -(2 ^ 63) ≤ expirationIn - revealTimeout)
    (hhi : expirationIn < 2 ^ 63) :
    takerExpiration expirationIn revealTimeout =
      expirationIn - revealTimeout ∧
    takerExpiration expirationIn revealTimeout + revealTimeout ≤
      expirationIn := by
  have h := wrap64_eq_self (expirationIn - revealTimeout) hlo (by omega)
  unfold takerExpiration
  omega

/-- Witness for C4: incoming expiration 1000, reveal timeout 30, so the
outgoing lock expires at block 970. -/
theorem c4_taker_expiration_bound_witness :
    takerExpiration 1000 30 = 1000 - 30 ∧
    takerExpiration 1000 30 + 30 ≤ 1000 :=
  c4_taker_expiration_bound 1000 30 (by decide) (by decide) (by decide)

/-! ### `RaidenService.SendAsync` -/

/-- The message shapes `SendAsync` distinguishes: a `RevealSecret` (with the
echo hash already stored in its tag, if any), and every other signed
message (the mediated-transfer listener dispatch does not alter the send
path). -/
inductive OutMsg where
  | revealSecret (existingTagEcho : Option Nat)
  | mediatedTransfer
  | secret
  | otherSigned
  deriving DecidableEq, Repr

/-- What a call to `SendAsync` did. -/
structure SendOutcome where
  /-- the `this must be a bug, sending message to it self` error was logged -/
  loggedSelfSendBug : Bool
  /-- the message was handed to `Protocol.SendAsync` -/
  sentViaProtocol : Bool
  /-- the `error` return value was non-nil -/
  returnedErr : Bool
  deriving DecidableEq, Repr

/-- Model of `RaidenService.SendAsync recipient msg`: when the recipient equals the
node's own address an error is logged, and execution continues; for a
`RevealSecret` a sent-secret record with echo hash `srsEcho` is stored and
the tag is set (a pre-existing tag with a different echo hash panics,
modelled as `none`); finally the message is always handed to
`Protocol.SendAsync` and `nil` is returned. -/
def sendAsync (nodeAddress recipient : Nat) (msg : OutMsg) (srsEcho : Nat) :
    Option SendOutcome :=
  let logged := recipient == nodeAddress
  match msg with
  | .revealSecret existingTagEcho =>
    match existingTagEcho with
    | none => some ⟨logged, true, false⟩
    | some e =>
      if e == srsEcho then some ⟨logged, true, false⟩ else none
  | _ => some ⟨logged, true, false⟩

/-- C5 counterexample: `SendAsync` invoked with the recipient equal to the
node's own address completes the send — the message is handed to
`Protocol.SendAsync` (after logging the self-send as a bug) instead of being
suppressed, so the no-self-send property is not enforced. -/
theorem c5_self_send_counterexample :
    (sendAsync 5 5 .otherSigned 0).map SendOutcome.sentViaProtocol =
      some true ∧
    (sendAsync 5 5 .otherSigned 0).map SendOutcome.loggedSelfSendBug =
      some true := by
  constructor <;> rfl

/-- C5 (amended): `SendAsync` detects a self-send (recipient equal to
`NodeAddress`) and logs it as a bug, but does not prevent it: whenever the
call returns (does not panic), the message has been handed to the protocol
layer, the returned error is nil, and the bug log fired exactly when the
recipient is the node itself. -/
theorem c5_self_send_logged_not_blocked (nodeAddress recipient : Nat)
    (msg : OutMsg) (srsEcho : Nat) (o : SendOutcome)
    (h : sendAsync nodeAddress recipient msg srsEcho = some o) :
    o.sentViaProtocol = true ∧ o.returnedErr = false ∧
    (o.loggedSelfSendBug = true ↔ recipient = nodeAddress) := by
  cases msg with
  | revealSecret existingTagEcho =>
    cases existingTagEcho with
    | none =>
      simp only [sendAsync] at h
      cases h
      simp
    | some e =>
      simp only [sendAsync] at h
      by_cases he : (e == srsEcho) = true
      · rw [if_pos he] at h
        cases h
        simp
      · rw [if_neg he] at h
        exact absurd h (by simp)
  | mediatedTransfer =>
    simp only [sendAsync] at h
    cases h
    simp
  | secret =>
    simp only [sendAsync] at h
    cases h
    simp
  | otherSigned =>
    simp only [sendAsync] at h
    cases h
    simp

/-- Witness for the amended C5: a send to a distinct recipient completes
without the bug log; the hypothesis is discharged by evaluation. -/
theorem c5_self_send_logged_not_blocked_witness :
    (⟨false, true, false⟩ : SendOutcome).sentViaProtocol = true ∧
    (⟨false, true, false⟩ : SendOutcome).returnedErr = false ∧
    ((⟨false, true, false⟩ : SendOutcome).loggedSelfSendBug = true ↔
      (4 : Nat) = 5) :=
  c5_self_send_logged_not_blocked 5 4 .otherSigned 0 ⟨false, true, false⟩
    (by decide)

/-! ### `RaidenService.DirectTransferAsync` -/

/-- The state-change payload logged by `DirectTransferAsync`
(`transfer.ActionTransferDirectStateChange`). -/
inductive RaidenStateChange where
  | actionTransferDirect (identifier : Nat) (amount : Int)
      (tokenAddress : Nat) (nodeAddress : Nat)
  deriving DecidableEq, Repr

/-- The event payload logged by `DirectTransferAsync`
(`transfer.EventTransferSentSuccess`). -/
inductive RaidenEvent where
  | transferSentSuccess (identifier : Nat) (amount : Int) (target : Nat)
  deriving DecidableEq, Repr

/-- The direct channel with the target, as `DirectTransferAsync` queries it:
partner address, whether `CanTransfer()` holds, the `Distributable()` amount,
and whether `CreateDirectTransfer` succeeds (its internals live in the
channel package). -/
structure DirectChannel where
  partnerAddress : Nat
  canTransfer : Bool
  distributable : Int
  createDirectTransferOk : Bool
  deriving DecidableEq, Repr

/-- The observable result of `DirectTransferAsync`: the async result is fed
an error, or the signed transfer is registered on the channel at the current
block and handed to `Protocol.SendAsync` for the partner. -/
inductive DirectTransferOutcome where
  | noAvailableDirectChannel
  | createTransferErr
  | sent (registeredAtBlock : Int) (partner : Nat)
  deriving DecidableEq, Repr

def directTransferIsFailure : DirectTransferOutcome → Bool
  | .sent _ _ => false
  | _ => true

/-- Model of `RaidenService.DirectTransferAsync`:
fail when there is no direct channel with the target, it cannot transfer, or
the distributable amount is below `amount`; fail when building the transfer
fails; otherwise sign it, register it on the channel, log the
`ActionTransferDirectStateChange` with an `EventTransferSentSuccess` event,
and send the message to the partner. -/
def directTransferAsync {τ : Type} (directChannel : Option DirectChannel)
    (tokenAddress target : Nat) (amount : Int) (identifier : Nat)
    (blockNumber : Int) (db : ModelDB RaidenStateChange RaidenEvent τ)
    (fails : Nat → Bool) :
    DirectTransferOutcome × ModelDB RaidenStateChange RaidenEvent τ :=
  match directChannel with
  | none => (.noAvailableDirectChannel, db)
  | some c =>
    if !c.canTransfer || decide (c.distributable < amount) then
      (.noAvailableDirectChannel, db)
    else if !c.createDirectTransferOk then
      (.createTransferErr, db)
    else
      let p1 := logStateChange db
        (.actionTransferDirect identifier amount tokenAddress
          c.partnerAddress)
      let p2 := logEvents p1.1 p1.2
        [.transferSentSuccess identifier amount target] blockNumber fails
      (.sent blockNumber c.partnerAddress, p2.1)

/-- C6: `DirectTransferAsync` returns a failure result if and only if there
is no direct channel with the target, the channel cannot currently transfer,
the distributable amount is below the requested amount, or building the
transfer fails; otherwise it registers the signed transfer on the channel,
logs the state change together with an `EventTransferSentSuccess` event
carrying that state change's identifier and the current block, and sends the
message to the partner. -/
theorem c6_direct_transfer_async {τ : Type} (c : DirectChannel)
    (tokenAddress target : Nat) (amount : Int) (identifier : Nat)
    (blockNumber : Int) (db : ModelDB RaidenStateChange RaidenEvent τ)
    (fails : Nat → Bool) (hfail : fails 0 = false) :
    directTransferAsync none tokenAddress target amount identifier
        blockNumber db fails = (.noAvailableDirectChannel, db) ∧
    (directTransferIsFailure
        (directTransferAsync (some c) tokenAddress target amount identifier
          blockNumber db fails).1 = true ↔
      (c.canTransfer = false ∨ c.distributable < amount ∨
        c.createDirectTransferOk = false)) ∧
    (c.canTransfer = true → ¬ c.distributable < amount →
      c.createDirectTransferOk = true →
      directTransferAsync (some c) tokenAddress target amount identifier
          blockNumber db fails =
        (.sent blockNumber c.partnerAddress,
          { db with
              stateChanges := db.stateChanges ++
                [⟨db.nextStateChangeId,
                  .actionTransferDirect identifier amount tokenAddress
                    c.partnerAddress⟩]
              nextStateChangeId := db.nextStateChangeId + 1
              events := db.events ++
                [⟨db.nextEventId, db.nextStateChangeId, blockNumber,
                  .transferSentSuccess identifier amount target⟩]
              nextEventId := db.nextEventId + 1 })) := by
  refine ⟨rfl, ?_, ?_⟩
  · cases hct : c.canTransfer <;> cases hck : c.createDirectTransferOk <;>
      by_cases hd : c.distributable < amount <;>
      simp [directTransferAsync, directTransferIsFailure, hct, hck, hd,
        logStateChange, logEvents, logEventsFrom, saveInternalEvent, hfail]
  · intro h1 h2 h3
    simp [directTransferAsync, h1, h2, h3, logStateChange, logEvents,
      logEventsFrom, saveInternalEvent, hfail]

/-- A concrete direct channel with the target: partner 9, transferable,
distributable 100, transfer creation succeeds. -/
def sampleChannel : DirectChannel := ⟨9, true, 100, true⟩

/-- A concrete fresh database over the direct-transfer payload types. -/
def sampleDirectDb : ModelDB RaidenStateChange RaidenEvent Nat :=
  { stateChanges := []
    nextStateChangeId := 1
    events := []
    nextEventId := 1
    snapshots := [(1, ⟨0, none⟩)]
    metaVersion := some dbVersion
    metaClose := some false
    handleClosed := false }

/-- Witness for C6: a usable channel with distributable 100 and amount 30;
the transfer is registered, logged and sent. -/
theorem c6_direct_transfer_async_witness :
    directTransferAsync (τ := Nat) none 1 9 30 77 50 sampleDirectDb
        (fun _ => false) = (.noAvailableDirectChannel, sampleDirectDb) ∧
    (directTransferIsFailure
        (directTransferAsync (some sampleChannel) 1 9 30 77 50 sampleDirectDb
          (fun _ => false)).1 = true ↔
      (sampleChannel.canTransfer = false ∨
        sampleChannel.distributable < 30 ∨
        sampleChannel.createDirectTransferOk = false)) ∧
    directTransferAsync (some sampleChannel) 1 9 30 77 50 sampleDirectDb
        (fun _ => false) =
      (.sent 50 sampleChannel.partnerAddress,
        { sampleDirectDb with
            stateChanges := sampleDirectDb.stateChanges ++
              [⟨sampleDirectDb.nextStateChangeId,
                .actionTransferDirect 77 30 1
                  sampleChannel.partnerAddress⟩]
            nextStateChangeId := sampleDirectDb.nextStateChangeId + 1
            events := sampleDirectDb.events ++
              [⟨sampleDirectDb.nextEventId,
                sampleDirectDb.nextStateChangeId, 50,
                .transferSentSuccess 77 30 9⟩]
            nextEventId := sampleDirectDb.nextEventId + 1 }) :=
  have h := c6_direct_transfer_async sampleChannel 1 9 30 77 50
    sampleDirectDb (fun _ => false) rfl
  ⟨h.1, h.2.1, h.2.2 rfl (by decide) rfl⟩

/-! ### File lock (`NewRaidenService` / `Stop`) -/

/-- The path of the lock file guarding a data directory:
`config.DataBasePath + ".flock.Lock"`. -/
def lockFilePath (dataBasePath : String) : String :=
  dataBasePath ++ ".flock.Lock"

/-- The exclusive file lock on a data directory: the id of the instance
holding it, if any. -/
structure FLock where
  holder : Option Nat
  deriving DecidableEq, Repr

/-- The `flock.TryLock` semantics for an exclusive lock: succeed exactly when no
instance holds it. -/
def tryLock (i : Nat) (l : FLock) : Bool × FLock :=
  match l.holder with
  | none => (true, ⟨some i⟩)
  | some _ => (false, l)

/-- Model of `flock.Unlock`: release the lock when held by this instance. -/
def unlockFLock (i : Nat) (l : FLock) : FLock :=
  if l.holder = some i then ⟨none⟩ else l

inductive StartResult where
  | started
  | exitedProcess
  deriving DecidableEq, Repr

/-- The locking step of `NewRaidenService`: `TryLock` the flock on
`lockFilePath`, and `utils.SystemExit(1)` when it errors or is not
acquired. -/
def newRaidenServiceAcquireLock (i : Nat) (l : FLock) : StartResult × FLock :=
  let p := tryLock i l
  if p.1 then (.started, p.2) else (.exitedProcess, p.2)

/-- The sequence of shutdown steps executed by `RaidenService.Stop`, in
source order. -/
inductive StopStep where
  | stopAlarmTask
  | stopRoutesTask
  | stopProtocol
  | stopBlockChainEvents
  | saveSnapshotStep
  | closeDatabaseStep
  | releaseFileLockStep
  deriving DecidableEq, Repr

def raidenStopSteps : List StopStep :=
  [.stopAlarmTask, .stopRoutesTask, .stopProtocol, .stopBlockChainEvents,
    .saveSnapshotStep, .closeDatabaseStep, .releaseFileLockStep]

/-- Lifecycle events of instances sharing one data directory. -/
inductive NodeEvent where
  | start (i : Nat)
  | stop (i : Nat)
  deriving DecidableEq, Repr

/-- The data directory's state: the flock and the instances currently
running against it. -/
structure DirState where
  lock : FLock
  running : List Nat
  deriving DecidableEq, Repr

def initialDirState : DirState := ⟨⟨none⟩, []⟩

/-- One lifecycle event: a starting instance runs only when
`NewRaidenService` acquires the lock (otherwise the process exits); a
stopping instance runs `Stop`, which releases the lock. -/
def dirStep (s : DirState) : NodeEvent → DirState
  | .start i =>
    match newRaidenServiceAcquireLock i s.lock with
    | (.started, l2) => ⟨l2, i :: s.running⟩
    | (.exitedProcess, l2) => ⟨l2, s.running⟩
  | .stop i =>
    if i ∈ s.running then ⟨unlockFLock i s.lock, s.running.erase i⟩ else s

/-- The lock discipline: at most one instance runs, and a running instance
holds the lock. -/
def dirInv (s : DirState) : Prop :=
  s.running = [] ∨ ∃ i, s.running = [i] ∧ s.lock.holder = some i

lemma dirStep_inv (s : DirState) (ev : NodeEvent) (h : dirInv s) :
    dirInv (dirStep s ev) := by
  cases ev with
  | start i =>
    cases hl : s.lock.holder with
    | none =>
      rcases h with h | ⟨j, hj, hjl⟩
      · right
        exact ⟨i, by simp [dirStep, newRaidenServiceAcquireLock, tryLock,
          hl, h], by simp [dirStep, newRaidenServiceAcquireLock, tryLock,
          hl]⟩
      · rw [hl] at hjl
        exact absurd hjl (by simp)
    | some j =>
      have : dirStep s (.start i) = ⟨s.lock, s.running⟩ := by
        simp [dirStep, newRaidenServiceAcquireLock, tryLock, hl]
      rw [this]
      rcases h with h | ⟨j2, hj2, hjl2⟩
      · left; exact h
      · right; exact ⟨j2, hj2, hjl2⟩
  | stop i =>
    by_cases hi : i ∈ s.running
    · rcases h with h | ⟨j, hj, hjl⟩
      · rw [h] at hi
        exact absurd hi (by simp)
      · have hij : i = j := by
          rw [hj] at hi
          simpa using hi
        subst hij
        left
        simp [dirStep, hi, hj, unlockFLock, hjl, List.erase_cons]
    · simpa [dirStep, hi] using h

lemma dirRun_inv (evs : List NodeEvent) :
    ∀ s : DirState, dirInv s → dirInv (evs.foldl dirStep s) := by
  induction evs with
  | nil => intro s h; simpa using h
  | cons ev evs ih =>
    intro s h
    exact ih (dirStep s ev) (dirStep_inv s ev h)

/-- C7: at most one open instance per data directory: `NewRaidenService`
tries the filesystem lock at `<DataBasePath>.flock.Lock` and exits the
process when it is already held, acquiring it otherwise; `Stop` releases the
lock after closing the database, so another instance can run; along every
sequence of start/stop events, at most one instance is ever running. -/
theorem c7_single_instance_lock (dataBasePath : String)
    (evs : List NodeEvent) (i j : Nat) :
    lockFilePath dataBasePath = dataBasePath ++ ".flock.Lock" ∧
    (newRaidenServiceAcquireLock i ⟨some j⟩).1 = .exitedProcess ∧
    newRaidenServiceAcquireLock i ⟨none⟩ = (.started, ⟨some i⟩) ∧
    List.indexOf .closeDatabaseStep raidenStopSteps <
      List.indexOf .releaseFileLockStep raidenStopSteps ∧
    dirStep (dirStep ⟨⟨some i⟩, [i]⟩ (.stop i)) (.start j) =
      ⟨⟨some j⟩, [j]⟩ ∧
    (evs.foldl dirStep initialDirState).running.length ≤ 1 := by
  refine ⟨rfl, rfl, rfl, by decide, ?_, ?_⟩
  · simp [dirStep, unlockFLock, newRaidenServiceAcquireLock, tryLock,
      List.erase_cons]
  · have h := dirRun_inv evs initialDirState (Or.inl rfl)
    rcases h with h | ⟨k, hk, _⟩
    · simp [h]
    · simp [hk]

/-! ### Contract-call TX info (`models/stormdb/contract_call_tx.go`) -/

/-- The `models.TXInfoStatus` values: `Pending/Success/Failed`. -/
inductive TXStatus where
  | pending
  | success
  | failed
  deriving DecidableEq, Repr

/-- The `models.TXInfoType` distinction `UpdateTXInfoStatus` cares about:
a deposit versus any other self-call type. -/
inductive TXType where
  | deposit
  | otherCall
  deriving DecidableEq, Repr

/-- The fields of `models.TXInfo` / `TXInfoSerialization` the claims touch
(`TXParams` is kept as its marshalled string form). -/
structure TXInfo where
  txHash : Nat
  channelIdentifier : Nat
  openBlockNumber : Int
  txType : TXType
  isSelfCall : Bool
  txParams : String
  status : TXStatus
  callTime : Int
  packBlockNumber : Int
  packTime : Int
  deriving DecidableEq, Repr

/-- Model of `StormDB.NewPendingTXInfo`: build the TX-info record for a self-initiated
transaction — status `Pending`, `IsSelfCall` true, `CallTime` now; when the
caller passed `openBlockNumber = 0` with a non-empty channel identifier, look
the channel up (`channelOpenBlock`, `none` when the lookup errors) and use
its open block — and append it to the store. -/
def newPendingTXInfo (store : List TXInfo) (txHash : Nat) (txType : TXType)
    (channelIdentifier : Nat) (openBlockNumber : Int) (txParamsStr : String)
    (channelOpenBlock : Option Int) (now : Int) : TXInfo × List TXInfo :=
  let openBlockNumber :=
    if openBlockNumber = 0 ∧ channelIdentifier ≠ 0 then
      channelOpenBlock.getD openBlockNumber
    else openBlockNumber
  let txInfo : TXInfo :=
    { txHash := txHash
      channelIdentifier := channelIdentifier
      openBlockNumber := openBlockNumber
      txType := txType
      isSelfCall := true
      txParams := txParamsStr
      status := .pending
      callTime := now
      packBlockNumber := 0
      packTime := 0 }
  (txInfo, store ++ [txInfo])

/-- Model of `StormDB.UpdateTXInfoStatus txHash status packBlockNumber`: fetch the
record with this transaction hash (`storm.One`, an error — `none` — when it
is missing), set the status, the supplied pack block number and the current
pack time, additionally setting `OpenBlockNumber` for a deposit whose
`OpenBlockNumber` was zero, and save it back. -/
def updateTXInfoStatus (store : List TXInfo) (txHash : Nat)
    (status : TXStatus) (packBlockNumber : Int) (now : Int) :
    Option (List TXInfo) :=
  match store.find? (fun t => t.txHash == txHash) with
  | none => none
  | some tis =>
    let tis2 :=
      { tis with
          status := status
          packBlockNumber := packBlockNumber
          packTime := now
          openBlockNumber :=
            if tis.openBlockNumber = 0 ∧ tis.txType = .deposit then
              packBlockNumber
            else tis.openBlockNumber }
    some (store.map (fun t => if t.txHash == txHash then tis2 else t))

/-- C9: persisted TX-info records carry the `Pending/Success/Failed` status,
`PackBlockNumber` and `PackTime`: every self-initiated on-chain transaction
is saved by `NewPendingTXInfo` with status `Pending`, `IsSelfCall` true and
the call time; `UpdateTXInfoStatus` sets the given status, the supplied
`PackBlockNumber` and the current pack time on the record with the matching
transaction hash (an error when no record matches), and additionally sets
`OpenBlockNumber` to `PackBlockNumber` when the record is a deposit whose
`OpenBlockNumber` was zero. -/
theorem c9_tx_info_records (store : List TXInfo) (txHash : Nat)
    (txType : TXType) (channelIdentifier : Nat) (openBlockNumber : Int)
    (txParamsStr : String) (channelOpenBlock : Option Int) (now : Int)
    (status : TXStatus) (packBlockNumber : Int) (packNow : Int)
    (tis : TXInfo)
    (hfound : store.find? (fun t => t.txHash == txHash) = some tis) :
    ((newPendingTXInfo store txHash txType channelIdentifier openBlockNumber
        txParamsStr channelOpenBlock now).1.status = .pending ∧
      (newPendingTXInfo store txHash txType channelIdentifier openBlockNumber
        txParamsStr channelOpenBlock now).1.isSelfCall = true ∧
      (newPendingTXInfo store txHash txType channelIdentifier openBlockNumber
        txParamsStr channelOpenBlock now).1.callTime = now ∧
      (newPendingTXInfo store txHash txType channelIdentifier openBlockNumber
          txParamsStr channelOpenBlock now).2 =
        store ++ [(newPendingTXInfo store txHash txType channelIdentifier
          openBlockNumber txParamsStr channelOpenBlock now).1]) ∧
    updateTXInfoStatus store txHash status packBlockNumber packNow =
      some (store.map (fun t =>
        if t.txHash == txHash then
          { tis with
              status := status
              packBlockNumber := packBlockNumber
              packTime := packNow
              openBlockNumber :=
                if tis.openBlockNumber = 0 ∧ tis.txType = .deposit then
                  packBlockNumber
                else tis.openBlockNumber }
        else t)) ∧
    updateTXInfoStatus [] txHash status packBlockNumber packNow = none := by
  refine ⟨⟨rfl, rfl, rfl, rfl⟩, ?_, rfl⟩
  simp [updateTXInfoStatus, hfound]

/-- A concrete pending deposit record with zero open block number. -/
def sampleDepositTx : TXInfo :=
  { txHash := 7
    channelIdentifier := 3
    openBlockNumber := 0
    txType := .deposit
    isSelfCall := true
    txParams := "p"
    status := .pending
    callTime := 900
    packBlockNumber := 0
    packTime := 0 }

/-- Witness for C9 at a concrete store: one pending deposit record with zero
open block; updating it to `Success` at pack block 120 also sets its open
block. -/
theorem c9_tx_info_records_witness :
    ((newPendingTXInfo [sampleDepositTx] 7 .deposit 3 0 "p" (some 80)
        1000).1.status = .pending ∧
      (newPendingTXInfo [sampleDepositTx] 7 .deposit 3 0 "p" (some 80)
        1000).1.isSelfCall = true ∧
      (newPendingTXInfo [sampleDepositTx] 7 .deposit 3 0 "p" (some 80)
        1000).1.callTime = 1000 ∧
      (newPendingTXInfo [sampleDepositTx] 7 .deposit 3 0 "p" (some 80)
          1000).2 =
        [sampleDepositTx] ++
          [(newPendingTXInfo [sampleDepositTx] 7 .deposit 3 0 "p" (some 80)
            1000).1]) ∧
    updateTXInfoStatus [sampleDepositTx] 7 .success 120 2000 =
      some ([sampleDepositTx].map (fun t =>
        if t.txHash == 7 then
          { sampleDepositTx with
              status := .success
              packBlockNumber := 120
              packTime := 2000
              openBlockNumber :=
                if sampleDepositTx.openBlockNumber = 0 ∧
                    sampleDepositTx.txType = .deposit then
                  (120 : Int)
                else sampleDepositTx.openBlockNumber }
        else t)) ∧
    updateTXInfoStatus [] 7 .success 120 2000 = none :=
  c9_tx_info_records [sampleDepositTx] 7 .deposit 3 0 "p" (some 80) 1000
    .success 120 2000 sampleDepositTx (by rfl)

/-! ### `RaidenService.RegisterChannelForHashlock` -/

/-- A channel object as `RegisterChannelForHashlock` sees it: two distinct
objects are identified exactly when their `ExternState.ChannelAddress`
coincides (the `objId` stands for the rest of the channel state, so distinct
objects may carry the same channel address). -/
structure ChanObj where
  channelAddress : Nat
  objId : Nat
  deriving DecidableEq, Repr

/-- The `Token2Hashlock2Channels` map of `RaidenService`: a Go nested map
read through missing keys as the empty list. -/
def Token2Hashlock2Channels : Type := Nat → Nat → List ChanObj

/-- The map with no channel registered for any `(token, hashlock)`. -/
def emptyT2H2C : Token2Hashlock2Channels := fun _ _ => []

/-- Model of `RaidenService.RegisterChannelForHashlock tokenAddress netchannel
hashlock`: look up the channels registered under `(tokenAddress, hashlock)`;
when one with the same channel address is already present do nothing,
otherwise append `netchannel` to that list (creating the inner hashlock map
when absent). -/
def registerChannelForHashlock (m : Token2Hashlock2Channels)
    (tokenAddress : Nat) (netchannel : ChanObj) (hashlock : Nat) :
    Token2Hashlock2Channels :=
  let channelsRegistered := m tokenAddress hashlock
  let found := channelsRegistered.any
    (fun c => c.channelAddress == netchannel.channelAddress)
  if found then m
  else fun t h =>
    if t == tokenAddress && h == hashlock then
      channelsRegistered ++ [netchannel]
    else m t h

/-- No `(token, hashlock)` list contains two channels with the same channel
address. -/
def noDupChannelAddrs (m : Token2Hashlock2Channels) : Prop :=
  ∀ t h, ((m t h).map (fun c => c.channelAddress)).Nodup

lemma registerChannelForHashlock_preserves_noDup
    (m : Token2Hashlock2Channels) (tokenAddress : Nat) (netchannel : ChanObj)
    (hashlock : Nat) (hm : noDupChannelAddrs m) :
    noDupChannelAddrs
      (registerChannelForHashlock m tokenAddress netchannel hashlock) := by
  intro t h
  by_cases hf : (m tokenAddress hashlock).any
      (fun c => c.channelAddress == netchannel.channelAddress) = true
  · simpa [registerChannelForHashlock, hf] using hm t h
  · by_cases hth : t = tokenAddress ∧ h = hashlock
    · have hmem : netchannel.channelAddress ∉
          (m tokenAddress hashlock).map (fun c => c.channelAddress) := by
        intro hin
        rcases List.mem_map.mp hin with ⟨c, hc, hca⟩
        apply hf
        rw [List.any_eq_true]
        exact ⟨c, hc, by simp [hca]⟩
      have hnd := hm tokenAddress hashlock
      simp only [registerChannelForHashlock, hf, Bool.false_eq_true,
        if_false, hth.1, hth.2, beq_self_eq_true, Bool.and_self, if_true,
        List.map_append, List.map_cons, List.map_nil]
      rw [List.nodup_append]
      refine ⟨hnd, List.nodup_singleton _, ?_⟩
      intro a ha hb
      simp only [List.mem_singleton] at hb
      subst hb
      exact hmem ha
    · simpa [registerChannelForHashlock, hf, hth] using hm t h

lemma registerFold_noDup (regs : List (Nat × ChanObj × Nat)) :
    ∀ m : Token2Hashlock2Channels, noDupChannelAddrs m →
      noDupChannelAddrs (regs.foldl
        (fun m r => registerChannelForHashlock m r.1 r.2.1 r.2.2) m) := by
  induction regs with
  | nil => intro m hm; simpa using hm
  | cons r regs ih =>
    intro m hm
    exact ih _ (registerChannelForHashlock_preserves_noDup m r.1 r.2.1 r.2.2
      hm)

/-- C10: `RegisterChannelForHashlock` is idempotent: registering a channel
whose channel address already appears in the list stored under
`(token, hashlock)` leaves the map unchanged; otherwise exactly that one
channel is appended to that list and every other `(token, hashlock)` entry is
untouched; consequently, starting from the empty map, no `(token, hashlock)`
list ever contains two channels with the same channel address. -/
theorem c10_register_channel_idempotent (m : Token2Hashlock2Channels)
    (tokenAddress : Nat) (netchannel : ChanObj) (hashlock : Nat)
    (regs : List (Nat × ChanObj × Nat))
    (hfound : (m tokenAddress hashlock).any
      (fun c => c.channelAddress == netchannel.channelAddress) = true)
    (m2 : Token2Hashlock2Channels)
    (hnotfound : (m2 tokenAddress hashlock).any
      (fun c => c.channelAddress == netchannel.channelAddress) = false) :
    registerChannelForHashlock m tokenAddress netchannel hashlock = m ∧
    (registerChannelForHashlock m2 tokenAddress netchannel hashlock)
        tokenAddress hashlock = m2 tokenAddress hashlock ++ [netchannel] ∧
    (∀ t h, t ≠ tokenAddress ∨ h ≠ hashlock →
      (registerChannelForHashlock m2 tokenAddress netchannel hashlock) t h =
        m2 t h) ∧
    noDupChannelAddrs (regs.foldl
      (fun m r => registerChannelForHashlock m r.1 r.2.1 r.2.2)
      emptyT2H2C) := by
  refine ⟨?_, ?_, ?_, ?_⟩
  · simp [registerChannelForHashlock, hfound]
  · simp [registerChannelForHashlock, hnotfound]
  · intro t h hth
    have hprop : ¬ (t = tokenAddress ∧ h = hashlock) := fun hc =>
      hth.elim (fun hne => hne hc.1) (fun hne => hne hc.2)
    simp [registerChannelForHashlock, hnotfound, hprop]
  · exact registerFold_noDup regs emptyT2H2C (by intro t h; simp [emptyT2H2C])

/-- A concrete map holding one channel with address 7 under `(0, 0)`. -/
def sampleT2H2C : Token2Hashlock2Channels :=
  fun t h => if t == 0 && h == 0 then [⟨7, 0⟩] else []

/-- Witness for C10: under `(0, 0)` the map already holds a channel with
address 7; registering another object with address 7 changes nothing, while
registering into the empty map appends. -/
theorem c10_register_channel_idempotent_witness :
    registerChannelForHashlock sampleT2H2C 0 ⟨7, 1⟩ 0 = sampleT2H2C ∧
    (registerChannelForHashlock emptyT2H2C 0 ⟨7, 1⟩ 0) 0 0 =
      emptyT2H2C 0 0 ++ [⟨7, 1⟩] ∧
    (registerChannelForHashlock emptyT2H2C 0 ⟨7, 1⟩ 0) 1 0 =
      emptyT2H2C 1 0 ∧
    noDupChannelAddrs ([(0, ⟨7, 0⟩, 0), (0, ⟨7, 1⟩, 0), (1, ⟨7, 2⟩, 5)].foldl
      (fun m r => registerChannelForHashlock m r.1 r.2.1 r.2.2)
      emptyT2H2C) :=
  have h := c10_register_channel_idempotent sampleT2H2C 0 ⟨7, 1⟩ 0
    [(0, ⟨7, 0⟩, 0), (0, ⟨7, 1⟩, 0), (1, ⟨7, 2⟩, 5)] (by rfl) emptyT2H2C
    (by rfl)
  ⟨h.1, h.2.1, h.2.2.1 1 0 (Or.inl (by decide)), h.2.2.2⟩

end Photon
